import Mathlib

/-!
Shallow embedding of the flood-rehabilitation camp-management core:
the `CampManager` operations (`src/src/utils/camps.js`), the store helpers
they call (`src/src/lib/supabase.js`), the `AuthManager.login` flow
(`src/unnamed/part_002`), and the relational schema's cascade semantics
(`src/unnamed/part_003`, `ON DELETE CASCADE` on `camp_selections` and
`volunteer_assignments`).

Modelling conventions:
- The store is a single sequential database value; each manager operation is
  a pure function from the database (plus the current-user context and the
  operation's arguments) to a result and a new database.
- The manager caches (`this.camps`, `this.userSelection`) are refreshed by
  `loadCamps` / `loadUserSelection` after every mutation and kept in sync by
  the realtime subscriptions, so the model reads them directly from the
  current database (fully-propagated sequential semantics).
- Every store round-trip can fail; a failing store call commits nothing.
  Each operation therefore takes one `Option StoreErr` argument per store
  write it performs, `none` meaning the call succeeded.  JavaScript `throw`
  plus the surrounding `try/catch` is modelled by returning the structured
  failure result the `catch` block builds.
- Timestamps are abstract `Nat` instants supplied by the caller.
-/

set_option autoImplicit false

namespace FloodRelief

/-- Selection status: `camp_selections.status` is constrained to
`'active'` or `'cancelled'` by the schema. -/
inductive Status where
  | active
  | cancelled
deriving DecidableEq, Repr

/-- A row of the `camps` table (fields no operation or claim reads —
`resources`, `contact`, `ambulance`, timestamps — are omitted). -/
structure Camp where
  id : Nat
  name : String
  beds : Int
  original_beds : Int
  type : String
  added_by : Option Nat
deriving DecidableEq, Repr

/-- A row of the `camp_selections` table. -/
structure Selection where
  id : Nat
  user_id : Nat
  camp_id : Nat
  status : Status
  cancelled_at : Option Nat
deriving DecidableEq, Repr

/-- A row of the `volunteer_assignments` table. -/
structure Assignment where
  id : Nat
  volunteer_id : Nat
  camp_id : Nat
deriving DecidableEq, Repr

/-- The current-user context `authManager.getCurrentUser()` supplies to the
camp manager; only `id` and `role` are read.  `role` is a raw string, as in
the JavaScript comparison `currentUser.role !== 'volunteer'`. -/
structure CUser where
  id : Nat
  role : String
deriving DecidableEq, Repr

/-- The persistent store: the three tables the camp manager touches, plus
fresh-id counters standing in for `gen_random_uuid()`. -/
structure DB where
  camps : List Camp
  selections : List Selection
  assignments : List Assignment
  nextCampId : Nat
  nextSelId : Nat
  nextAsgId : Nat
deriving DecidableEq, Repr

/-- A store-layer error as surfaced by supabase: a code (e.g. `PGRST116`
for "no rows") and a message. -/
structure StoreErr where
  code : String
  message : String
deriving DecidableEq, Repr

/-- The structured result every `CampManager` method returns:
`{ success: true, ... }` or `{ success: false, error: error.message }`. -/
structure MgrResult where
  success : Bool
  error : Option String
deriving DecidableEq, Repr

def mgrOk : MgrResult := ⟨true, none⟩

def mgrFail (msg : String) : MgrResult := ⟨false, some msg⟩

/-- Error message thrown by `selectCamp` when no user is logged in. -/
def errMustLogIn : String := "User must be logged in to select a camp"

/-- Error message for the `AlreadySelected` failure condition. -/
def errAlreadySelected : String :=
  "You already have a camp selected. Please cancel your current selection first."

/-- Error message for the `CampNotFound` failure condition. -/
def errCampNotFound : String := "Camp not found"

/-- Error message for the `CampFull` failure condition. -/
def errCampFull : String := "This camp is full"

/-- Error message for the `NoActiveSelection` failure condition. -/
def errNoActiveSelection : String := "No active camp selection found"

/-- Error message for the `NotAuthorized` failure of `addCamp`. -/
def errOnlyVolunteersAdd : String := "Only volunteers can add camps"

/-- Error message for the `NotAuthorized` failure of `deleteCamp`. -/
def errOnlyVolunteersDelete : String := "Only volunteers can delete camps"

/-- Error message for the `NotAuthorized` failure of `addVolunteerAssignment`. -/
def errOnlyVolunteersAssigned : String := "Only volunteers can be assigned to camps"

/-- Error message of a failed login. -/
def errInvalidLogin : String := "Invalid email or password"

/-- `this.camps.find(c => c.id === campId)`. -/
def findCamp (camps : List Camp) (campId : Nat) : Option Camp :=
  camps.find? (fun c => c.id == campId)

/-- `dbHelpers.getUserCampSelection`: the user's row with `status = active`
(`.eq('user_id', userId).eq('status', 'active').single()`). -/
def getUserCampSelection (sels : List Selection) (userId : Nat) : Option Selection :=
  sels.find? (fun r => r.user_id == userId && r.status == Status.active)

/-- `dbHelpers.createCampSelection`: insert a fresh row; `status` is always
`'active'` at creation and `cancelled_at` is null. -/
def createCampSelection (s : DB) (userId campId : Nat) : Selection × DB :=
  let row : Selection := ⟨s.nextSelId, userId, campId, Status.active, none⟩
  (row, { s with selections := s.selections ++ [row], nextSelId := s.nextSelId + 1 })

/-- `dbHelpers.updateCamp(id, { beds })`: set `beds` on every row whose id
matches (`.eq('id', id)`). -/
def updateCampBeds (s : DB) (campId : Nat) (b : Int) : DB :=
  { s with camps := s.camps.map (fun c => if c.id == campId then { c with beds := b } else c) }

/-- `dbHelpers.cancelCampSelection(userId)`: set `status = 'cancelled'` and
stamp `cancelled_at` on every row of the user with `status = 'active'`. -/
def cancelCampSelection (s : DB) (userId : Nat) (now : Nat) : DB :=
  { s with selections := s.selections.map (fun r =>
      if r.user_id == userId && r.status == Status.active then
        { r with status := Status.cancelled, cancelled_at := some now }
      else r) }

/-- `dbHelpers.deleteCamp(id)` together with the schema's
`ON DELETE CASCADE` on `camp_selections.camp_id` and
`volunteer_assignments.camp_id`. -/
def deleteCampRow (s : DB) (campId : Nat) : DB :=
  { s with
    camps := s.camps.filter (fun c => !(c.id == campId)),
    selections := s.selections.filter (fun r => !(r.camp_id == campId)),
    assignments := s.assignments.filter (fun a => !(a.camp_id == campId)) }

/-- The camp data supplied to `addCamp` (only the fields the core reads). -/
structure CampData where
  name : String
  beds : Int
deriving DecidableEq, Repr

/-- `CampManager.selectCamp(campId)`.  `insErr` is the outcome of the
`createCampSelection` store call, `updErr` of the `updateCamp` call. -/
def selectCamp (s : DB) (currentUser : Option CUser) (campId : Nat)
    (insErr updErr : Option StoreErr) : MgrResult × DB :=
  match currentUser with
  | none => (mgrFail errMustLogIn, s)
  | some u =>
    match getUserCampSelection s.selections u.id with
    | some _ => (mgrFail errAlreadySelected, s)
    | none =>
      match findCamp s.camps campId with
      | none => (mgrFail errCampNotFound, s)
      | some camp =>
        if camp.beds ≤ 0 then (mgrFail errCampFull, s)
        else
          match insErr with
          | some e => (mgrFail e.message, s)
          | none =>
            let ins := createCampSelection s u.id campId
            match updErr with
            | some e => (mgrFail e.message, ins.2)
            | none => (mgrOk, updateCampBeds ins.2 campId (camp.beds - 1))

/-- `CampManager.cancelSelection()`.  `cancelErr` is the outcome of the
`cancelCampSelection` store call, `updErr` of the `updateCamp` call; the
bed increment is skipped (without failing) when the camp is no longer in
the camp list. -/
def cancelSelection (s : DB) (currentUser : Option CUser) (now : Nat)
    (cancelErr updErr : Option StoreErr) : MgrResult × DB :=
  match currentUser with
  | none => (mgrFail errNoActiveSelection, s)
  | some u =>
    match getUserCampSelection s.selections u.id with
    | none => (mgrFail errNoActiveSelection, s)
    | some sel =>
      match cancelErr with
      | some e => (mgrFail e.message, s)
      | none =>
        let s1 := cancelCampSelection s u.id now
        match findCamp s.camps sel.camp_id with
        | none => (mgrOk, s1)
        | some camp =>
          match updErr with
          | some e => (mgrFail e.message, s1)
          | none => (mgrOk, updateCampBeds s1 sel.camp_id (camp.beds + 1))

/-- `CampManager.addCamp(campData)`: volunteer-only; the created row has
`original_beds: campData.beds`, `type: 'volunteer-added'`, `added_by` the
requester. -/
def addCamp (s : DB) (currentUser : Option CUser) (data : CampData)
    (createErr : Option StoreErr) : MgrResult × DB :=
  match currentUser with
  | none => (mgrFail errOnlyVolunteersAdd, s)
  | some u =>
    if u.role != "volunteer" then (mgrFail errOnlyVolunteersAdd, s)
    else
      match createErr with
      | some e => (mgrFail e.message, s)
      | none =>
        let newCamp : Camp :=
          ⟨s.nextCampId, data.name, data.beds, data.beds, "volunteer-added", some u.id⟩
        (mgrOk, { s with camps := s.camps ++ [newCamp], nextCampId := s.nextCampId + 1 })

/-- `CampManager.deleteCamp(campId)`: volunteer-only; the store delete
cascades per the schema. -/
def deleteCamp (s : DB) (currentUser : Option CUser) (campId : Nat)
    (delErr : Option StoreErr) : MgrResult × DB :=
  match currentUser with
  | none => (mgrFail errOnlyVolunteersDelete, s)
  | some u =>
    if u.role != "volunteer" then (mgrFail errOnlyVolunteersDelete, s)
    else
      match delErr with
      | some e => (mgrFail e.message, s)
      | none => (mgrOk, deleteCampRow s campId)

/-- `CampManager.loadCamps()`: a read; only its structured result matters
to the claims. -/
def loadCamps (getErr : Option StoreErr) : MgrResult :=
  match getErr with
  | some e => mgrFail e.message
  | none => mgrOk

/-- `CampManager.loadUserSelection()`: a read; a store error with code
`PGRST116` ("not found") is treated as a successful empty result. -/
def loadUserSelection (currentUser : Option CUser) (getErr : Option StoreErr) : MgrResult :=
  match currentUser with
  | none => mgrOk
  | some _ =>
    match getErr with
    | some e => if e.code == "PGRST116" then mgrOk else mgrFail e.message
    | none => mgrOk

/-- `CampManager.addVolunteerAssignment(campId)`: volunteer-only append. -/
def addVolunteerAssignment (s : DB) (currentUser : Option CUser) (campId : Nat)
    (insErr : Option StoreErr) : MgrResult × DB :=
  match currentUser with
  | none => (mgrFail errOnlyVolunteersAssigned, s)
  | some u =>
    if u.role != "volunteer" then (mgrFail errOnlyVolunteersAssigned, s)
    else
      match insErr with
      | some e => (mgrFail e.message, s)
      | none =>
        (mgrOk, { s with
          assignments := s.assignments ++ [⟨s.nextAsgId, u.id, campId⟩],
          nextAsgId := s.nextAsgId + 1 })

/-- `CampManager.getVolunteerHistory()`: returns success with an empty list
for non-volunteers, otherwise reads the assignment log. -/
def getVolunteerHistory (currentUser : Option CUser) (getErr : Option StoreErr) : MgrResult :=
  match currentUser with
  | none => mgrOk
  | some u =>
    if u.role != "volunteer" then mgrOk
    else
      match getErr with
      | some e => mgrFail e.message
      | none => mgrOk

/-- A row of the `users` table as `AuthManager` reads it (profile fields no
claim touches are omitted; `password` is the stored credential column). -/
structure AuthUser where
  id : Nat
  email : String
  name : String
  role : String
  password : String
deriving DecidableEq, Repr

/-- The user object after `const { password, ...userToStore } = user`. -/
structure StoredUser where
  id : Nat
  email : String
  name : String
  role : String
deriving DecidableEq, Repr

def stripPassword (u : AuthUser) : StoredUser := ⟨u.id, u.email, u.name, u.role⟩

/-- `dbHelpers.getUserByEmail` (`.eq('email', email).single()`); `email` is
unique, modelled by first match. -/
def getUserByEmail (users : List AuthUser) (email : String) : Option AuthUser :=
  users.find? (fun u => u.email == email)

/-- The outcome of `AuthManager.login`: the structured result plus the
`currentUser` cache after `setCurrentUser`. -/
structure LoginOut where
  success : Bool
  error : Option String
  user : Option StoredUser
  currentUser : Option StoredUser
deriving DecidableEq, Repr

/-- `AuthManager.login(email, password)`: look the user up by email and, as
the source comments, "for demo purposes, we'll accept any password" — the
`password` argument is never read. -/
def login (users : List AuthUser) (prevUser : Option StoredUser)
    (email password : String) (getErr : Option StoreErr) : LoginOut :=
  match getErr with
  | some _ => ⟨false, some errInvalidLogin, none, prevUser⟩
  | none =>
    match getUserByEmail users email with
    | none => ⟨false, some errInvalidLogin, none, prevUser⟩
    | some user =>
      let userToStore := stripPassword user
      ⟨true, none, some userToStore, some userToStore⟩

/-- The three default camps the migration seeds (`beds = original_beds`). -/
def seedCamps : List Camp :=
  [⟨0, "Central School Grounds", 24, 24, "default", none⟩,
   ⟨1, "Community Hall", 12, 12, "default", none⟩,
   ⟨2, "Government High School", 30, 30, "default", none⟩]

/-- The store right after the migration: seed camps, no selections, no
assignments. -/
def initState : DB := ⟨seedCamps, [], [], 3, 0, 0⟩

/-- One completed Inventory Ledger operation, with its current-user context
and arguments. -/
inductive MOp where
  | opSelect (u : Option CUser) (campId : Nat)
  | opCancel (u : Option CUser) (now : Nat)
  | opAdd (u : Option CUser) (data : CampData)
  | opDelete (u : Option CUser) (campId : Nat)
deriving DecidableEq, Repr

/-- The store after a completed fault-free operation (every store call
succeeds; the operation itself may still fail its precondition checks and
leave the store untouched). -/
def applyOp (s : DB) : MOp → DB
  | .opSelect u cid => (selectCamp s u cid none none).2
  | .opCancel u now => (cancelSelection s u now none none).2
  | .opAdd u d => (addCamp s u d none).2
  | .opDelete u cid => (deleteCamp s u cid none).2

/-- Input discipline of the data model: camp capacities supplied at creation
are integers ≥ 0 (spec §3); all other operation inputs are unrestricted. -/
def ValidOp : MOp → Prop
  | .opAdd _ d => 0 ≤ d.beds
  | _ => True

/-- Stores reachable from the seeded initial store by completed fault-free
operations with data-model-conforming inputs. -/
inductive Reachable : DB → Prop where
  | init : Reachable initState
  | step {s : DB} (op : MOp) : Reachable s → ValidOp op → Reachable (applyOp s op)

/-- Stores reachable from the seeded initial store by completed operations
with arbitrary inputs and arbitrary store-call outcomes (so partially
failed executions are included). -/
inductive ReachableF : DB → Prop where
  | init : ReachableF initState
  | stepSelect {s : DB} (u : Option CUser) (cid : Nat) (ie ue : Option StoreErr) :
      ReachableF s → ReachableF (selectCamp s u cid ie ue).2
  | stepCancel {s : DB} (u : Option CUser) (now : Nat) (ce ue : Option StoreErr) :
      ReachableF s → ReachableF (cancelSelection s u now ce ue).2
  | stepAdd {s : DB} (u : Option CUser) (d : CampData) (e : Option StoreErr) :
      ReachableF s → ReachableF (addCamp s u d e).2
  | stepDelete {s : DB} (u : Option CUser) (cid : Nat) (e : Option StoreErr) :
      ReachableF s → ReachableF (deleteCamp s u cid e).2

/-- Number of active selection rows pointing at a camp. -/
def activeCountFor (sels : List Selection) (campId : Nat) : Nat :=
  sels.countP (fun r => r.camp_id == campId && r.status == Status.active)

/-- Number of active selection rows of a user. -/
def userActiveCount (sels : List Selection) (userId : Nat) : Nat :=
  sels.countP (fun r => r.user_id == userId && r.status == Status.active)

/-- The inductive state invariant of the ledger: bed counts are non-negative
and agree with the active selection rows, every active selection points at
an existing camp, each user holds at most one active selection, and camp
ids are fresh and duplicate-free. -/
structure Inv (s : DB) : Prop where
  bedsNonneg : ∀ c ∈ s.camps, 0 ≤ c.beds
  agree : ∀ c ∈ s.camps, c.beds + (activeCountFor s.selections c.id : Int) = c.original_beds
  activeCampExists : ∀ r ∈ s.selections, r.status = Status.active →
    ∃ c ∈ s.camps, c.id = r.camp_id
  singleActive : ∀ uid : Nat, userActiveCount s.selections uid ≤ 1
  idsFresh : ∀ c ∈ s.camps, c.id < s.nextCampId
  idsNodup : (s.camps.map Camp.id).Nodup

/-! ### List-level helper lemmas -/

lemma countP_and_split {α : Type} (p q : α → Bool) (l : List α) :
    l.countP (fun a => p a && q a) + l.countP (fun a => !p a && q a) = l.countP q := by
  induction l with
  | nil => simp
  | cons a l ih =>
    simp only [List.countP_cons]
    cases hp : p a <;> cases hq : q a <;> simp [hp, hq] <;> omega

lemma countP_eq_zero_of_find?_none {α : Type} {p : α → Bool} {l : List α}
    (h : l.find? p = none) : l.countP p = 0 := by
  rw [List.countP_eq_zero]
  simpa using List.find?_eq_none.mp h

lemma countP_and_of_single {α : Type} (p q : α → Bool) (l : List α) (a : α)
    (ha : a ∈ l) (hpa : p a = true) (hcount : l.countP p ≤ 1) :
    l.countP (fun x => p x && q x) = if q a = true then 1 else 0 := by
  by_cases hqa : q a = true
  · rw [if_pos hqa]
    have h1 : 0 < l.countP (fun x => p x && q x) :=
      List.countP_pos_iff.mpr ⟨a, ha, by simp [hpa, hqa]⟩
    have h2 : l.countP (fun x => p x && q x) ≤ l.countP p :=
      List.countP_mono_left (fun x _ hx => by simp at hx; exact hx.1)
    omega
  · rw [if_neg hqa]
    by_contra hne
    obtain ⟨b, hb, hpqb⟩ := List.countP_pos_iff.mp (Nat.pos_of_ne_zero hne)
    simp only [Bool.and_eq_true] at hpqb
    obtain ⟨hpb, hqb⟩ := hpqb
    have hab : a ≠ b := fun h => by subst h; exact hqa hqb
    rw [List.countP_eq_length_filter] at hcount
    have ha2 : a ∈ l.filter p := List.mem_filter.mpr ⟨ha, hpa⟩
    have hb2 : b ∈ l.filter p := List.mem_filter.mpr ⟨hb, hpb⟩
    cases hf : l.filter p with
    | nil => rw [hf] at ha2; simp at ha2
    | cons x t =>
      cases t with
      | nil =>
        rw [hf] at ha2 hb2
        simp at ha2 hb2
        exact hab (ha2.trans hb2.symm)
      | cons y t' => rw [hf] at hcount; simp at hcount

lemma camp_id_injOn {l : List Camp} (h : (l.map Camp.id).Nodup) {x y : Camp}
    (hx : x ∈ l) (hy : y ∈ l) (hid : x.id = y.id) : x = y :=
  List.inj_on_of_nodup_map h hx hy hid

lemma updateCamp_fn_id (cid : Nat) (b : Int) (c : Camp) :
    (if c.id == cid then { c with beds := b } else c).id = c.id := by
  split <;> rfl

lemma map_update_ids (l : List Camp) (cid : Nat) (b : Int) :
    (l.map (fun c => if c.id == cid then { c with beds := b } else c)).map Camp.id
      = l.map Camp.id := by
  rw [List.map_map]
  exact List.map_congr_left (fun c _ => updateCamp_fn_id cid b c)

lemma find?_map_update (l : List Camp) (cid : Nat) (b : Int) (c : Camp)
    (h : l.find? (fun x => x.id == cid) = some c) :
    (l.map (fun x => if x.id == cid then { x with beds := b } else x)).find?
      (fun x => x.id == cid) = some { c with beds := b } := by
  induction l with
  | nil => simp at h
  | cons a l ih =>
    by_cases ha : (a.id == cid) = true
    · rw [List.find?_cons_of_pos (p := fun x : Camp => x.id == cid) _ ha] at h
      injection h with h
      subst h
      rw [List.map_cons, if_pos ha]
      exact List.find?_cons_of_pos (p := fun x : Camp => x.id == cid) _ ha
    · rw [List.find?_cons_of_neg (p := fun x : Camp => x.id == cid) _ ha] at h
      rw [List.map_cons, if_neg ha]
      rw [List.find?_cons_of_neg (p := fun x : Camp => x.id == cid) _ ha]
      exact ih h

/-! ### Facts extracted from store lookups -/

lemma getUserCampSelection_spec {sels : List Selection} {uid : Nat} {sel : Selection}
    (h : getUserCampSelection sels uid = some sel) :
    sel ∈ sels ∧ sel.user_id = uid ∧ sel.status = Status.active := by
  refine ⟨List.mem_of_find?_eq_some h, ?_, ?_⟩ <;>
  · have hp := List.find?_some h
    simp at hp
    tauto

lemma findCamp_spec {camps : List Camp} {cid : Nat} {camp : Camp}
    (h : findCamp camps cid = some camp) : camp ∈ camps ∧ camp.id = cid := by
  refine ⟨List.mem_of_find?_eq_some h, ?_⟩
  have hp := List.find?_some h
  simpa using hp

lemma findCamp_eq_some_of_exists {camps : List Camp} {cid : Nat}
    (h : ∃ c ∈ camps, c.id = cid) : ∃ camp, findCamp camps cid = some camp := by
  obtain ⟨c, hc, hid⟩ := h
  have hs : (camps.find? (fun x => x.id == cid)).isSome :=
    List.find?_isSome.mpr ⟨c, hc, by simp [hid]⟩
  obtain ⟨camp, hcamp⟩ := Option.isSome_iff_exists.mp hs
  exact ⟨camp, hcamp⟩

/-! ### Control-flow equations for the manager operations -/

lemma selectCamp_noUser (s : DB) (cid : Nat) (ie ue : Option StoreErr) :
    selectCamp s none cid ie ue = (mgrFail errMustLogIn, s) := rfl

lemma selectCamp_already (s : DB) (u : CUser) (cid : Nat) (ie ue : Option StoreErr)
    {sel : Selection} (hsel : getUserCampSelection s.selections u.id = some sel) :
    selectCamp s (some u) cid ie ue = (mgrFail errAlreadySelected, s) := by
  simp [selectCamp, hsel]

lemma selectCamp_notFound (s : DB) (u : CUser) (cid : Nat) (ie ue : Option StoreErr)
    (hsel : getUserCampSelection s.selections u.id = none)
    (hfind : findCamp s.camps cid = none) :
    selectCamp s (some u) cid ie ue = (mgrFail errCampNotFound, s) := by
  simp [selectCamp, hsel, hfind]

lemma selectCamp_full (s : DB) (u : CUser) (cid : Nat) (ie ue : Option StoreErr)
    {camp : Camp} (hsel : getUserCampSelection s.selections u.id = none)
    (hfind : findCamp s.camps cid = some camp) (hb : camp.beds ≤ 0) :
    selectCamp s (some u) cid ie ue = (mgrFail errCampFull, s) := by
  simp [selectCamp, hsel, hfind, hb]

lemma selectCamp_insErr (s : DB) (u : CUser) (cid : Nat) (e : StoreErr) (ue : Option StoreErr)
    {camp : Camp} (hsel : getUserCampSelection s.selections u.id = none)
    (hfind : findCamp s.camps cid = some camp) (hb : ¬ camp.beds ≤ 0) :
    selectCamp s (some u) cid (some e) ue = (mgrFail e.message, s) := by
  simp [selectCamp, hsel, hfind, hb]

lemma selectCamp_updErr (s : DB) (u : CUser) (cid : Nat) (e : StoreErr)
    {camp : Camp} (hsel : getUserCampSelection s.selections u.id = none)
    (hfind : findCamp s.camps cid = some camp) (hb : ¬ camp.beds ≤ 0) :
    selectCamp s (some u) cid none (some e)
      = (mgrFail e.message,
         { s with selections := s.selections ++ [⟨s.nextSelId, u.id, cid, Status.active, none⟩],
                  nextSelId := s.nextSelId + 1 }) := by
  simp [selectCamp, hsel, hfind, hb, createCampSelection]

lemma selectCamp_commit (s : DB) (u : CUser) (cid : Nat)
    {camp : Camp} (hsel : getUserCampSelection s.selections u.id = none)
    (hfind : findCamp s.camps cid = some camp) (hb : ¬ camp.beds ≤ 0) :
    selectCamp s (some u) cid none none
      = (mgrOk, updateCampBeds
          { s with selections := s.selections ++ [⟨s.nextSelId, u.id, cid, Status.active, none⟩],
                   nextSelId := s.nextSelId + 1 }
          cid (camp.beds - 1)) := by
  simp [selectCamp, hsel, hfind, hb, createCampSelection]

lemma cancelSelection_noUser (s : DB) (now : Nat) (ce ue : Option StoreErr) :
    cancelSelection s none now ce ue = (mgrFail errNoActiveSelection, s) := rfl

lemma cancelSelection_noActive (s : DB) (u : CUser) (now : Nat) (ce ue : Option StoreErr)
    (hsel : getUserCampSelection s.selections u.id = none) :
    cancelSelection s (some u) now ce ue = (mgrFail errNoActiveSelection, s) := by
  simp [cancelSelection, hsel]

lemma cancelSelection_cancelErr (s : DB) (u : CUser) (now : Nat) (e : StoreErr)
    (ue : Option StoreErr) {sel : Selection}
    (hsel : getUserCampSelection s.selections u.id = some sel) :
    cancelSelection s (some u) now (some e) ue = (mgrFail e.message, s) := by
  simp [cancelSelection, hsel]

lemma cancelSelection_campGone (s : DB) (u : CUser) (now : Nat) (ue : Option StoreErr)
    {sel : Selection} (hsel : getUserCampSelection s.selections u.id = some sel)
    (hfind : findCamp s.camps sel.camp_id = none) :
    cancelSelection s (some u) now none ue = (mgrOk, cancelCampSelection s u.id now) := by
  simp [cancelSelection, hsel, hfind]

lemma cancelSelection_updErr (s : DB) (u : CUser) (now : Nat) (e : StoreErr)
    {sel : Selection} {camp : Camp}
    (hsel : getUserCampSelection s.selections u.id = some sel)
    (hfind : findCamp s.camps sel.camp_id = some camp) :
    cancelSelection s (some u) now none (some e)
      = (mgrFail e.message, cancelCampSelection s u.id now) := by
  simp [cancelSelection, hsel, hfind]

lemma cancelSelection_commit (s : DB) (u : CUser) (now : Nat)
    {sel : Selection} {camp : Camp}
    (hsel : getUserCampSelection s.selections u.id = some sel)
    (hfind : findCamp s.camps sel.camp_id = some camp) :
    cancelSelection s (some u) now none none
      = (mgrOk, updateCampBeds (cancelCampSelection s u.id now) sel.camp_id (camp.beds + 1)) := by
  simp [cancelSelection, hsel, hfind]

lemma addCamp_noUser (s : DB) (d : CampData) (e : Option StoreErr) :
    addCamp s none d e = (mgrFail errOnlyVolunteersAdd, s) := rfl

lemma addCamp_notVolunteer (s : DB) (u : CUser) (d : CampData) (e : Option StoreErr)
    (hrole : u.role ≠ "volunteer") :
    addCamp s (some u) d e = (mgrFail errOnlyVolunteersAdd, s) := by
  simp [addCamp, hrole]

lemma addCamp_createErr (s : DB) (u : CUser) (d : CampData) (e : StoreErr)
    (hrole : u.role = "volunteer") :
    addCamp s (some u) d (some e) = (mgrFail e.message, s) := by
  simp [addCamp, hrole]

lemma addCamp_commit (s : DB) (u : CUser) (d : CampData)
    (hrole : u.role = "volunteer") :
    addCamp s (some u) d none
      = (mgrOk, { s with
          camps := s.camps ++ [⟨s.nextCampId, d.name, d.beds, d.beds, "volunteer-added", some u.id⟩],
          nextCampId := s.nextCampId + 1 }) := by
  simp [addCamp, hrole]

lemma deleteCamp_noUser (s : DB) (cid : Nat) (e : Option StoreErr) :
    deleteCamp s none cid e = (mgrFail errOnlyVolunteersDelete, s) := rfl

lemma deleteCamp_notVolunteer (s : DB) (u : CUser) (cid : Nat) (e : Option StoreErr)
    (hrole : u.role ≠ "volunteer") :
    deleteCamp s (some u) cid e = (mgrFail errOnlyVolunteersDelete, s) := by
  simp [deleteCamp, hrole]

lemma deleteCamp_delErr (s : DB) (u : CUser) (cid : Nat) (e : StoreErr)
    (hrole : u.role = "volunteer") :
    deleteCamp s (some u) cid (some e) = (mgrFail e.message, s) := by
  simp [deleteCamp, hrole]

lemma deleteCamp_commit (s : DB) (u : CUser) (cid : Nat)
    (hrole : u.role = "volunteer") :
    deleteCamp s (some u) cid none = (mgrOk, deleteCampRow s cid) := by
  simp [deleteCamp, hrole]

/-! ### Invariant preservation -/

lemma inv_select_commit (s : DB) (uid cid : Nat) (camp : Camp)
    (h : Inv s)
    (hnone : getUserCampSelection s.selections uid = none)
    (hfind : findCamp s.camps cid = some camp)
    (hbeds : ¬ camp.beds ≤ 0) :
    Inv (updateCampBeds
      { s with selections := s.selections ++ [⟨s.nextSelId, uid, cid, Status.active, none⟩],
               nextSelId := s.nextSelId + 1 }
      cid (camp.beds - 1)) := by
  obtain ⟨hmem, hid⟩ := findCamp_spec hfind
  have hcount : ∀ x : Nat,
      activeCountFor (s.selections ++ [⟨s.nextSelId, uid, cid, Status.active, none⟩]) x
        = activeCountFor s.selections x + (if cid = x then 1 else 0) := by
    intro x
    simp [activeCountFor, List.countP_append, List.countP_singleton]
  constructor
  · -- bedsNonneg
    intro c' hc'
    obtain ⟨c, hc, rfl⟩ := List.mem_map.mp hc'
    by_cases hcc : (c.id == cid) = true
    · have hceq : c = camp := by
        apply camp_id_injOn h.idsNodup hc hmem
        rw [hid]
        simpa using hcc
      subst hceq
      simp only [updateCampBeds, if_pos hcc]
      omega
    · simp only [updateCampBeds, if_neg hcc]
      exact h.bedsNonneg c hc
  · -- agree
    intro c' hc'
    obtain ⟨c, hc, rfl⟩ := List.mem_map.mp hc'
    by_cases hcc : (c.id == cid) = true
    · have hceq : c = camp := by
        apply camp_id_injOn h.idsNodup hc hmem
        rw [hid]
        simpa using hcc
      subst hceq
      have hagree := h.agree c hc
      simp only [updateCampBeds, if_pos hcc]
      rw [hcount]
      rw [if_pos hid.symm]
      push_cast
      omega
    · have hcne : cid ≠ c.id := by
        intro hcontra
        exact hcc (by simp [hcontra])
      have hagree := h.agree c hc
      simp only [updateCampBeds, if_neg hcc]
      rw [hcount, if_neg hcne]
      simpa using hagree
  · -- activeCampExists
    intro r hr hact
    rcases List.mem_append.mp hr with hr' | hr'
    · obtain ⟨c, hc, hcr⟩ := h.activeCampExists r hr' hact
      refine ⟨_, List.mem_map_of_mem _ hc, ?_⟩
      rw [updateCamp_fn_id, hcr]
    · have hrow : r = ⟨s.nextSelId, uid, cid, Status.active, none⟩ := by simpa using hr'
      subst hrow
      refine ⟨_, List.mem_map_of_mem _ hmem, ?_⟩
      rw [updateCamp_fn_id, hid]
  · -- singleActive
    intro v
    by_cases hv : uid = v
    · subst hv
      have hz : userActiveCount s.selections uid = 0 :=
        countP_eq_zero_of_find?_none hnone
      simp only [userActiveCount, updateCampBeds] at hz ⊢
      simp [List.countP_append, List.countP_singleton, hz]
    · have hvne : (uid == v) = false := by simp [hv]
      have hle := h.singleActive v
      simp only [userActiveCount, updateCampBeds] at hle ⊢
      simpa [List.countP_append, List.countP_singleton, hvne] using hle
  · -- idsFresh
    intro c' hc'
    obtain ⟨c, hc, rfl⟩ := List.mem_map.mp hc'
    rw [updateCamp_fn_id]
    exact h.idsFresh c hc
  · -- idsNodup
    have := map_update_ids s.camps cid (camp.beds - 1)
    simp only [updateCampBeds]
    rw [this]
    exact h.idsNodup

lemma inv_selectCamp (s : DB) (u : Option CUser) (cid : Nat) (h : Inv s) :
    Inv (selectCamp s u cid none none).2 := by
  cases u with
  | none => rw [selectCamp_noUser]; exact h
  | some u =>
    cases hsel : getUserCampSelection s.selections u.id with
    | some sel => rw [selectCamp_already s u cid none none hsel]; exact h
    | none =>
      cases hfind : findCamp s.camps cid with
      | none => rw [selectCamp_notFound s u cid none none hsel hfind]; exact h
      | some camp =>
        by_cases hbeds : camp.beds ≤ 0
        · rw [selectCamp_full s u cid none none hsel hfind hbeds]; exact h
        · rw [selectCamp_commit s u cid hsel hfind hbeds]
          exact inv_select_commit s u.id cid camp h hsel hfind hbeds

lemma activeCountFor_cancelMap (sels : List Selection) (uid now cid : Nat) :
    activeCountFor (sels.map (fun r =>
        if r.user_id == uid && r.status == Status.active then
          { r with status := Status.cancelled, cancelled_at := some now }
        else r)) cid
      + sels.countP (fun r => (r.user_id == uid && r.status == Status.active)
          && (r.camp_id == cid && r.status == Status.active))
      = activeCountFor sels cid := by
  unfold activeCountFor
  rw [List.countP_map]
  rw [List.countP_congr (q := fun r : Selection =>
      !(r.user_id == uid && r.status == Status.active)
        && (r.camp_id == cid && r.status == Status.active)) ?_]
  · have hsplit := countP_and_split
      (fun r : Selection => r.user_id == uid && r.status == Status.active)
      (fun r : Selection => r.camp_id == cid && r.status == Status.active) sels
    omega
  · intro r _
    by_cases hr : (r.user_id == uid && r.status == Status.active) = true
    · simp [Function.comp, hr]
    · simp only [Bool.not_eq_true] at hr
      simp [Function.comp, hr]

lemma userActiveCount_cancelMap_le (sels : List Selection) (uid now v : Nat) :
    userActiveCount (sels.map (fun r =>
        if r.user_id == uid && r.status == Status.active then
          { r with status := Status.cancelled, cancelled_at := some now }
        else r)) v ≤ userActiveCount sels v := by
  unfold userActiveCount
  rw [List.countP_map]
  apply List.countP_mono_left
  intro r _ hr
  by_cases hru : (r.user_id == uid && r.status == Status.active) = true
  · exfalso
    revert hr
    simp [Function.comp, hru]
  · simp only [Bool.not_eq_true] at hru
    revert hr
    simp [Function.comp, hru]

lemma inv_cancel_commit (s : DB) (u : CUser) (now : Nat) (sel : Selection) (camp : Camp)
    (h : Inv s)
    (hsel : getUserCampSelection s.selections u.id = some sel)
    (hfind : findCamp s.camps sel.camp_id = some camp) :
    Inv (updateCampBeds (cancelCampSelection s u.id now) sel.camp_id (camp.beds + 1)) := by
  obtain ⟨hselmem, hseluid, hselact⟩ := getUserCampSelection_spec hsel
  obtain ⟨hmem, hid⟩ := findCamp_spec hfind
  have hup : (sel.user_id == u.id && sel.status == Status.active) = true := by
    simp [hseluid, hselact]
  have hsingle : s.selections.countP
      (fun r => r.user_id == u.id && r.status == Status.active) ≤ 1 :=
    h.singleActive u.id
  have hcnt : ∀ x : Nat,
      activeCountFor (cancelCampSelection s u.id now).selections x
        + (if sel.camp_id = x then 1 else 0)
        = activeCountFor s.selections x := by
    intro x
    have hmain := activeCountFor_cancelMap s.selections u.id now x
    have hone : s.selections.countP (fun r => (r.user_id == u.id && r.status == Status.active)
          && (r.camp_id == x && r.status == Status.active))
        = if sel.camp_id = x then 1 else 0 := by
      rw [countP_and_of_single _ _ _ sel hselmem hup hsingle]
      by_cases hx : sel.camp_id = x
      · rw [if_pos hx, if_pos (by simp [hx, hselact])]
      · rw [if_neg hx, if_neg (by simp [hx, hselact])]
    rw [hone] at hmain
    simpa [cancelCampSelection] using hmain
  constructor
  · -- bedsNonneg
    intro c' hc'
    simp only [updateCampBeds, cancelCampSelection] at hc'
    obtain ⟨c, hc, rfl⟩ := List.mem_map.mp hc'
    by_cases hcc : (c.id == sel.camp_id) = true
    · have hceq : c = camp := by
        apply camp_id_injOn h.idsNodup hc hmem
        rw [hid]
        simpa using hcc
      subst hceq
      have hnn := h.bedsNonneg c hc
      simp only [if_pos hcc]
      omega
    · simp only [if_neg hcc]
      exact h.bedsNonneg c hc
  · -- agree
    intro c' hc'
    simp only [updateCampBeds, cancelCampSelection] at hc'
    obtain ⟨c, hc, rfl⟩ := List.mem_map.mp hc'
    by_cases hcc : (c.id == sel.camp_id) = true
    · have hceq : c = camp := by
        apply camp_id_injOn h.idsNodup hc hmem
        rw [hid]
        simpa using hcc
      subst hceq
      have hagree := h.agree c hc
      have hcview := hcnt c.id
      have hcid : c.id = sel.camp_id := by simpa using hcc
      rw [if_pos hcid.symm] at hcview
      simp only [updateCampBeds, if_pos hcc]
      push_cast at hagree hcview ⊢
      omega
    · have hcne : sel.camp_id ≠ c.id := by
        intro hcontra
        exact hcc (by simp [hcontra])
      have hagree := h.agree c hc
      have hcview := hcnt c.id
      rw [if_neg hcne] at hcview
      simp only [updateCampBeds, if_neg hcc]
      push_cast at hagree hcview ⊢
      omega
  · -- activeCampExists
    intro r' hr' hact
    simp only [updateCampBeds, cancelCampSelection] at hr'
    obtain ⟨r, hr, rfl⟩ := List.mem_map.mp hr'
    by_cases hru : (r.user_id == u.id && r.status == Status.active) = true
    · exfalso
      rw [if_pos hru] at hact
      exact Status.noConfusion hact
    · rw [if_neg hru] at hact ⊢
      obtain ⟨c, hc, hcr⟩ := h.activeCampExists r hr hact
      refine ⟨_, List.mem_map_of_mem _ hc, ?_⟩
      rw [updateCamp_fn_id, hcr]
  · -- singleActive
    intro v
    have hle := userActiveCount_cancelMap_le s.selections u.id now v
    have := h.singleActive v
    simp only [updateCampBeds, cancelCampSelection]
    simp only [userActiveCount] at *
    omega
  · -- idsFresh
    intro c' hc'
    simp only [updateCampBeds, cancelCampSelection] at hc' ⊢
    obtain ⟨c, hc, rfl⟩ := List.mem_map.mp hc'
    rw [updateCamp_fn_id]
    exact h.idsFresh c hc
  · -- idsNodup
    simp only [updateCampBeds, cancelCampSelection]
    rw [map_update_ids]
    exact h.idsNodup

lemma inv_cancelSelection (s : DB) (u : Option CUser) (now : Nat) (h : Inv s) :
    Inv (cancelSelection s u now none none).2 := by
  cases u with
  | none => rw [cancelSelection_noUser]; exact h
  | some u =>
    cases hsel : getUserCampSelection s.selections u.id with
    | none => rw [cancelSelection_noActive s u now none none hsel]; exact h
    | some sel =>
      obtain ⟨hselmem, _, hselact⟩ := getUserCampSelection_spec hsel
      obtain ⟨camp, hfind⟩ :=
        findCamp_eq_some_of_exists (h.activeCampExists sel hselmem hselact)
      rw [cancelSelection_commit s u now hsel hfind]
      exact inv_cancel_commit s u now sel camp h hsel hfind

lemma inv_add_commit (s : DB) (u : CUser) (d : CampData) (h : Inv s) (hd : 0 ≤ d.beds) :
    Inv { s with
      camps := s.camps ++ [⟨s.nextCampId, d.name, d.beds, d.beds, "volunteer-added", some u.id⟩],
      nextCampId := s.nextCampId + 1 } := by
  have hnew : activeCountFor s.selections s.nextCampId = 0 := by
    rw [activeCountFor, List.countP_eq_zero]
    intro r hr hmatch
    simp only [Bool.and_eq_true, beq_iff_eq] at hmatch
    obtain ⟨hcid, hact⟩ := hmatch
    obtain ⟨c, hc, hcr⟩ := h.activeCampExists r hr (by simpa using hact)
    have := h.idsFresh c hc
    omega
  constructor
  · intro c hc
    rcases List.mem_append.mp hc with hc' | hc'
    · exact h.bedsNonneg c hc'
    · have : c = ⟨s.nextCampId, d.name, d.beds, d.beds, "volunteer-added", some u.id⟩ := by
        simpa using hc'
      subst this
      exact hd
  · intro c hc
    rcases List.mem_append.mp hc with hc' | hc'
    · exact h.agree c hc'
    · have : c = ⟨s.nextCampId, d.name, d.beds, d.beds, "volunteer-added", some u.id⟩ := by
        simpa using hc'
      subst this
      simp [hnew]
  · intro r hr hact
    obtain ⟨c, hc, hcr⟩ := h.activeCampExists r hr hact
    exact ⟨c, List.mem_append.mpr (Or.inl hc), hcr⟩
  · exact h.singleActive
  · intro c hc
    rcases List.mem_append.mp hc with hc' | hc'
    · have := h.idsFresh c hc'
      show c.id < s.nextCampId + 1
      omega
    · have : c = ⟨s.nextCampId, d.name, d.beds, d.beds, "volunteer-added", some u.id⟩ := by
        simpa using hc'
      subst this
      show s.nextCampId < s.nextCampId + 1
      omega
  · rw [List.map_append, List.nodup_append]
    refine ⟨h.idsNodup, by simp, ?_⟩
    intro a ha hb
    simp only [List.map_cons, List.map_nil] at hb
    obtain ⟨c, hc, hca⟩ := List.mem_map.mp ha
    have := h.idsFresh c hc
    have hab : a = s.nextCampId := by simpa using hb
    omega

lemma inv_addCamp (s : DB) (u : Option CUser) (d : CampData) (h : Inv s) (hd : 0 ≤ d.beds) :
    Inv (addCamp s u d none).2 := by
  cases u with
  | none => rw [addCamp_noUser]; exact h
  | some u =>
    by_cases hrole : u.role = "volunteer"
    · rw [addCamp_commit s u d hrole]
      exact inv_add_commit s u d h hd
    · rw [addCamp_notVolunteer s u d none hrole]
      exact h

lemma inv_delete_commit (s : DB) (cid : Nat) (h : Inv s) : Inv (deleteCampRow s cid) := by
  have hcnt : ∀ x : Nat, x ≠ cid →
      activeCountFor (s.selections.filter (fun r => !(r.camp_id == cid))) x
        = activeCountFor s.selections x := by
    intro x hx
    rw [activeCountFor, activeCountFor, List.countP_filter]
    apply List.countP_congr
    intro r _
    cases hact : (r.status == Status.active) with
    | false => simp [hact]
    | true =>
      by_cases hcx : r.camp_id = x
      · have hnc : (r.camp_id == cid) = false := by simp [hcx, hx]
        simp [hact, hcx, hnc, hx]
      · have hne : (r.camp_id == x) = false := by simp [hcx]
        simp [hact, hne]
  constructor
  · intro c hc
    exact h.bedsNonneg c (List.mem_of_mem_filter hc)
  · intro c hc
    obtain ⟨hc', hpc⟩ := List.mem_filter.mp hc
    have hne : c.id ≠ cid := by simpa using hpc
    simp only [deleteCampRow]
    rw [hcnt c.id hne]
    exact h.agree c hc'
  · intro r hr hact
    obtain ⟨hr', hpr⟩ := List.mem_filter.mp hr
    obtain ⟨c, hc, hcr⟩ := h.activeCampExists r hr' hact
    refine ⟨c, List.mem_filter.mpr ⟨hc, ?_⟩, hcr⟩
    have : r.camp_id ≠ cid := by simpa using hpr
    simp [hcr, this]
  · intro v
    have hle := h.singleActive v
    rw [userActiveCount] at hle ⊢
    simp only [deleteCampRow]
    rw [List.countP_filter]
    refine le_trans (List.countP_mono_left (fun r _ hr => ?_)) hle
    simp only [Bool.and_eq_true] at hr ⊢
    exact hr.1
  · intro c hc
    exact h.idsFresh c (List.mem_of_mem_filter hc)
  · exact List.Nodup.sublist
      (List.Sublist.map Camp.id (List.filter_sublist s.camps)) h.idsNodup

lemma inv_deleteCamp (s : DB) (u : Option CUser) (cid : Nat) (h : Inv s) :
    Inv (deleteCamp s u cid none).2 := by
  cases u with
  | none => rw [deleteCamp_noUser]; exact h
  | some u =>
    by_cases hrole : u.role = "volunteer"
    · rw [deleteCamp_commit s u cid hrole]
      exact inv_delete_commit s cid h
    · rw [deleteCamp_notVolunteer s u cid none hrole]
      exact h

/-- The seeded initial store satisfies the ledger invariant. -/
lemma inv_initState : Inv initState := by
  constructor
  · intro c hc
    simp only [initState, seedCamps, List.mem_cons, List.not_mem_nil, or_false] at hc
    rcases hc with rfl | rfl | rfl <;> norm_num
  · intro c hc
    simp only [initState, seedCamps, List.mem_cons, List.not_mem_nil, or_false] at hc
    rcases hc with rfl | rfl | rfl <;> simp [activeCountFor, initState]
  · intro r hr
    simp [initState] at hr
  · intro v
    simp [userActiveCount, initState]
  · intro c hc
    simp only [initState, seedCamps, List.mem_cons, List.not_mem_nil, or_false] at hc
    rcases hc with rfl | rfl | rfl <;> norm_num [initState]
  · simp [initState, seedCamps]

/-- Every store reachable by completed fault-free operations with
data-model-conforming inputs satisfies the ledger invariant. -/
lemma reachable_inv {s : DB} (h : Reachable s) : Inv s := by
  induction h with
  | init => exact inv_initState
  | step op hr hv ih =>
    cases op with
    | opSelect u cid => exact inv_selectCamp _ u cid ih
    | opCancel u now => exact inv_cancelSelection _ u now ih
    | opAdd u d => exact inv_addCamp _ u d ih hv
    | opDelete u cid => exact inv_deleteCamp _ u cid ih

/-! ### The single-active-selection bound holds even on partially failed
executions -/

lemma userActiveCount_append_le (sels : List Selection) (uid cid nid : Nat)
    (hnone : getUserCampSelection sels uid = none)
    (h : ∀ v, userActiveCount sels v ≤ 1) (v : Nat) :
    userActiveCount (sels ++ [⟨nid, uid, cid, Status.active, none⟩]) v ≤ 1 := by
  by_cases hv : uid = v
  · subst hv
    have hz : userActiveCount sels uid = 0 := countP_eq_zero_of_find?_none hnone
    rw [userActiveCount] at hz ⊢
    simp [List.countP_append, List.countP_singleton, hz]
  · have hvne : (uid == v) = false := by simp [hv]
    have hle := h v
    rw [userActiveCount] at hle ⊢
    simpa [List.countP_append, List.countP_singleton, hvne] using hle

lemma userActiveCount_filter_le (sels : List Selection) (p : Selection → Bool) (v : Nat) :
    userActiveCount (sels.filter p) v ≤ userActiveCount sels v := by
  rw [userActiveCount, userActiveCount, List.countP_filter]
  refine List.countP_mono_left (fun r _ hr => ?_)
  simp only [Bool.and_eq_true] at hr ⊢
  exact hr.1

lemma singleActive_selectCamp (s : DB) (u : Option CUser) (cid : Nat) (ie ue : Option StoreErr)
    (h : ∀ v, userActiveCount s.selections v ≤ 1) :
    ∀ v, userActiveCount (selectCamp s u cid ie ue).2.selections v ≤ 1 := by
  cases u with
  | none => rw [selectCamp_noUser]; exact h
  | some u =>
    cases hsel : getUserCampSelection s.selections u.id with
    | some sel => rw [selectCamp_already s u cid ie ue hsel]; exact h
    | none =>
      cases hfind : findCamp s.camps cid with
      | none => rw [selectCamp_notFound s u cid ie ue hsel hfind]; exact h
      | some camp =>
        by_cases hb : camp.beds ≤ 0
        · rw [selectCamp_full s u cid ie ue hsel hfind hb]; exact h
        · cases ie with
          | some e => rw [selectCamp_insErr s u cid e ue hsel hfind hb]; exact h
          | none =>
            cases ue with
            | some e =>
              rw [selectCamp_updErr s u cid e hsel hfind hb]
              exact userActiveCount_append_le s.selections u.id cid s.nextSelId hsel h
            | none =>
              rw [selectCamp_commit s u cid hsel hfind hb]
              exact userActiveCount_append_le s.selections u.id cid s.nextSelId hsel h

lemma singleActive_cancelSelection (s : DB) (u : Option CUser) (now : Nat)
    (ce ue : Option StoreErr)
    (h : ∀ v, userActiveCount s.selections v ≤ 1) :
    ∀ v, userActiveCount (cancelSelection s u now ce ue).2.selections v ≤ 1 := by
  cases u with
  | none => rw [cancelSelection_noUser]; exact h
  | some u =>
    cases hsel : getUserCampSelection s.selections u.id with
    | none => rw [cancelSelection_noActive s u now ce ue hsel]; exact h
    | some sel =>
      cases ce with
      | some e => rw [cancelSelection_cancelErr s u now e ue hsel]; exact h
      | none =>
        cases hfind : findCamp s.camps sel.camp_id with
        | none =>
          rw [cancelSelection_campGone s u now ue hsel hfind]
          exact fun v => le_trans (userActiveCount_cancelMap_le s.selections u.id now v) (h v)
        | some camp =>
          cases ue with
          | some e =>
            rw [cancelSelection_updErr s u now e hsel hfind]
            exact fun v => le_trans (userActiveCount_cancelMap_le s.selections u.id now v) (h v)
          | none =>
            rw [cancelSelection_commit s u now hsel hfind]
            exact fun v => le_trans (userActiveCount_cancelMap_le s.selections u.id now v) (h v)

lemma singleActive_addCamp (s : DB) (u : Option CUser) (d : CampData) (e : Option StoreErr)
    (h : ∀ v, userActiveCount s.selections v ≤ 1) :
    ∀ v, userActiveCount (addCamp s u d e).2.selections v ≤ 1 := by
  cases u with
  | none => rw [addCamp_noUser]; exact h
  | some u =>
    by_cases hrole : u.role = "volunteer"
    · cases e with
      | some e => rw [addCamp_createErr s u d e hrole]; exact h
      | none => rw [addCamp_commit s u d hrole]; exact h
    · rw [addCamp_notVolunteer s u d e hrole]; exact h

lemma singleActive_deleteCamp (s : DB) (u : Option CUser) (cid : Nat) (e : Option StoreErr)
    (h : ∀ v, userActiveCount s.selections v ≤ 1) :
    ∀ v, userActiveCount (deleteCamp s u cid e).2.selections v ≤ 1 := by
  cases u with
  | none => rw [deleteCamp_noUser]; exact h
  | some u =>
    by_cases hrole : u.role = "volunteer"
    · cases e with
      | some e => rw [deleteCamp_delErr s u cid e hrole]; exact h
      | none =>
        rw [deleteCamp_commit s u cid hrole]
        exact fun v => le_trans
          (userActiveCount_filter_le s.selections (fun r => !(r.camp_id == cid)) v) (h v)
    · rw [deleteCamp_notVolunteer s u cid e hrole]; exact h

lemma reachableF_singleActive {s : DB} (h : ReachableF s) :
    ∀ v, userActiveCount s.selections v ≤ 1 := by
  induction h with
  | init => intro v; simp [userActiveCount, initState]
  | stepSelect u cid ie ue hr ih => exact singleActive_selectCamp _ u cid ie ue ih
  | stepCancel u now ce ue hr ih => exact singleActive_cancelSelection _ u now ce ue ih
  | stepAdd u d e hr ih => exact singleActive_addCamp _ u d e ih
  | stepDelete u cid e hr ih => exact singleActive_deleteCamp _ u cid e ih

lemma eq_of_countP_le_one {α : Type} {p : α → Bool} {l : List α}
    (hc : l.countP p ≤ 1) {a b : α} (ha : a ∈ l) (hb : b ∈ l)
    (hpa : p a = true) (hpb : p b = true) : a = b := by
  rw [List.countP_eq_length_filter] at hc
  have ha2 : a ∈ l.filter p := List.mem_filter.mpr ⟨ha, hpa⟩
  have hb2 : b ∈ l.filter p := List.mem_filter.mpr ⟨hb, hpb⟩
  cases hf : l.filter p with
  | nil => rw [hf] at ha2; simp at ha2
  | cons x t =>
    cases t with
    | nil =>
      rw [hf] at ha2 hb2
      simp at ha2 hb2
      rw [ha2, hb2]
    | cons y t' => rw [hf] at hc; simp at hc

/-! ### Concrete fixtures used by the witnesses and counterexamples -/

/-- A refugee user context. -/
def uRef : CUser := ⟨7, "refugee"⟩

/-- A volunteer user context. -/
def uVol : CUser := ⟨8, "volunteer"⟩

/-- A store holding one camp that is full (`beds = 0`). -/
def dbFull : DB := ⟨[⟨1, "Riverside Hall", 0, 0, "default", none⟩], [], [], 2, 0, 0⟩

/-- A store holding one camp with a single free bed. -/
def dbOneBed : DB := ⟨[⟨1, "Hilltop Hall", 1, 1, "default", none⟩], [], [], 2, 0, 0⟩

/-- A generic store error. -/
def errBoom : StoreErr := ⟨"500", "network down"⟩

/-! ### Claim theorems -/

/-- C1: for every camp, after every completed Inventory Ledger operation
(`selectCamp`, `cancelSelection`, `addCamp`, `deleteCamp`) executed
fault-free from the seeded store with data-model-conforming inputs, the
camp's bed count satisfies `0 ≤ beds ≤ original_beds`. -/
theorem claim_C1_beds_within_bounds (s : DB) (h : Reachable s) :
    ∀ c ∈ s.camps, 0 ≤ c.beds ∧ c.beds ≤ c.original_beds := by
  intro c hc
  have hinv := reachable_inv h
  refine ⟨hinv.bedsNonneg c hc, ?_⟩
  have hagree := hinv.agree c hc
  omega

/-- Witness for C1: after a refugee selects the first seed camp, that camp
holds 23 of its original 24 beds, within bounds. -/
theorem claim_C1_beds_within_bounds_witness :
    0 ≤ (⟨0, "Central School Grounds", 23, 24, "default", none⟩ : Camp).beds ∧
      (⟨0, "Central School Grounds", 23, 24, "default", none⟩ : Camp).beds
        ≤ (⟨0, "Central School Grounds", 23, 24, "default", none⟩ : Camp).original_beds :=
  claim_C1_beds_within_bounds (applyOp initState (MOp.opSelect (some uRef) 0))
    (Reachable.step (MOp.opSelect (some uRef) 0) Reachable.init trivial)
    ⟨0, "Central School Grounds", 23, 24, "default", none⟩ (by decide)

/-- C2: after any sequence of completed operations — including executions
where store calls fail partway through — every user holds at most one
selection row with `status = active`. -/
theorem claim_C2_single_active_selection (s : DB) (h : ReachableF s) (uid : Nat) :
    userActiveCount s.selections uid ≤ 1 :=
  reachableF_singleActive h uid

/-- Witness for C2: after a select whose bed-update store call failed (the
selection row was still committed), the user still has at most one active
row. -/
theorem claim_C2_single_active_selection_witness :
    userActiveCount (selectCamp initState (some uRef) 0 none (some errBoom)).2.selections 7 ≤ 1 :=
  claim_C2_single_active_selection _
    (ReachableF.stepSelect (some uRef) 0 none (some errBoom) ReachableF.init) 7

/-- C4: with a logged-in user, `selectCamp` fails with the
`AlreadySelected` message whenever the user already holds an active
selection; otherwise with `CampNotFound` whenever the target camp does not
exist; otherwise with `CampFull` whenever the camp's `beds ≤ 0` (in
particular whenever `beds = 0`).  In each case the returned store equals
the input store: no selection row is created and no bed count changes.
The three conditions are evaluated in the source's order, regardless of the
store-call outcomes. -/
theorem claim_C4_selectCamp_failure_cases (s : DB) (u : CUser) (cid : Nat)
    (ie ue : Option StoreErr) :
    ((∃ sel, getUserCampSelection s.selections u.id = some sel) →
        selectCamp s (some u) cid ie ue = (mgrFail errAlreadySelected, s))
    ∧ (getUserCampSelection s.selections u.id = none → findCamp s.camps cid = none →
        selectCamp s (some u) cid ie ue = (mgrFail errCampNotFound, s))
    ∧ (∀ camp, getUserCampSelection s.selections u.id = none →
        findCamp s.camps cid = some camp → camp.beds ≤ 0 →
        selectCamp s (some u) cid ie ue = (mgrFail errCampFull, s)) := by
  refine ⟨?_, ?_, ?_⟩
  · rintro ⟨sel, hsel⟩
    exact selectCamp_already s u cid ie ue hsel
  · exact selectCamp_notFound s u cid ie ue
  · intro camp hsel hfind hb
    exact selectCamp_full s u cid ie ue hsel hfind hb

/-- Witness for C4: selecting a camp with `beds = 0` fails with the
`CampFull` message and leaves the store untouched. -/
theorem claim_C4_selectCamp_failure_cases_witness :
    selectCamp dbFull (some uRef) 1 none none = (mgrFail errCampFull, dbFull) :=
  (claim_C4_selectCamp_failure_cases dbFull uRef 1 none none).2.2
    ⟨1, "Riverside Hall", 0, 0, "default", none⟩ rfl rfl (by decide)

/-- C7: `addCamp` succeeds only for a requester whose role is
`volunteer` — any other requester (wrong role or not logged in) gets the
`NotAuthorized` message and an unchanged store — and the camp it creates
has `original_beds` equal to the `beds` value supplied at creation. -/
theorem claim_C7_addCamp_volunteer_only (s : DB) (u : CUser) (d : CampData) :
    (u.role = "volunteer" →
       ∃ newCamp : Camp,
         addCamp s (some u) d none
           = (mgrOk, { s with camps := s.camps ++ [newCamp],
                              nextCampId := s.nextCampId + 1 })
         ∧ newCamp.original_beds = d.beds ∧ newCamp.beds = d.beds)
    ∧ (u.role ≠ "volunteer" → ∀ e, addCamp s (some u) d e = (mgrFail errOnlyVolunteersAdd, s))
    ∧ (∀ e, addCamp s none d e = (mgrFail errOnlyVolunteersAdd, s)) := by
  refine ⟨?_, ?_, ?_⟩
  · intro hrole
    exact ⟨⟨s.nextCampId, d.name, d.beds, d.beds, "volunteer-added", some u.id⟩,
      addCamp_commit s u d hrole, rfl, rfl⟩
  · intro hrole e
    exact addCamp_notVolunteer s u d e hrole
  · intro e
    exact addCamp_noUser s d e

/-- Witness for C7: a refugee cannot add a camp, and a volunteer's new
camp records `original_beds = beds = 5`. -/
theorem claim_C7_addCamp_volunteer_only_witness :
    (addCamp dbFull (some uRef) ⟨"New Shelter", 5⟩ none
        = (mgrFail errOnlyVolunteersAdd, dbFull))
    ∧ ∃ newCamp : Camp,
        addCamp dbFull (some uVol) ⟨"New Shelter", 5⟩ none
          = (mgrOk, { dbFull with camps := dbFull.camps ++ [newCamp],
                                  nextCampId := dbFull.nextCampId + 1 })
        ∧ newCamp.original_beds = 5 ∧ newCamp.beds = 5 :=
  ⟨(claim_C7_addCamp_volunteer_only dbFull uRef ⟨"New Shelter", 5⟩).2.1 (by decide) none,
   (claim_C7_addCamp_volunteer_only dbFull uVol ⟨"New Shelter", 5⟩).1 rfl⟩

/-- C5: on a reachable store, when the user holds an active selection,
`cancelSelection` succeeds, transitions that selection's row to
`cancelled` stamping `cancelled_at`, and increments the associated camp's
beds by exactly 1, and the result never exceeds `original_beds`; when the
user holds no active selection it fails with the `NoActiveSelection`
message and an unchanged store. -/
theorem claim_C5_cancelSelection (s : DB) (h : Reachable s) (u : CUser) (now : Nat) :
    (getUserCampSelection s.selections u.id = none →
       cancelSelection s (some u) now none none = (mgrFail errNoActiveSelection, s))
    ∧ (∀ sel, getUserCampSelection s.selections u.id = some sel →
       (cancelSelection s (some u) now none none).1 = mgrOk
       ∧ ({ sel with status := Status.cancelled, cancelled_at := some now } : Selection)
           ∈ (cancelSelection s (some u) now none none).2.selections
       ∧ ∃ camp, findCamp s.camps sel.camp_id = some camp
           ∧ findCamp (cancelSelection s (some u) now none none).2.camps sel.camp_id
               = some { camp with beds := camp.beds + 1 }
           ∧ camp.beds + 1 ≤ camp.original_beds) := by
  have hinv := reachable_inv h
  constructor
  · intro hsel
    exact cancelSelection_noActive s u now none none hsel
  · intro sel hsel
    obtain ⟨hselmem, hseluid, hselact⟩ := getUserCampSelection_spec hsel
    obtain ⟨camp, hfind⟩ :=
      findCamp_eq_some_of_exists (hinv.activeCampExists sel hselmem hselact)
    obtain ⟨hmem, hid⟩ := findCamp_spec hfind
    have hup : (sel.user_id == u.id && sel.status == Status.active) = true := by
      simp [hseluid, hselact]
    rw [cancelSelection_commit s u now hsel hfind]
    refine ⟨rfl, ?_, camp, hfind, ?_, ?_⟩
    · -- the cancelled, stamped row is in the new store
      show _ ∈ (cancelCampSelection s u.id now).selections
      simp only [cancelCampSelection]
      have hm := List.mem_map_of_mem (fun r : Selection =>
        if r.user_id == u.id && r.status == Status.active then
          { r with status := Status.cancelled, cancelled_at := some now }
        else r) hselmem
      simpa [hup] using hm
    · -- the camp's beds are incremented by exactly 1
      exact find?_map_update s.camps sel.camp_id (camp.beds + 1) camp hfind
    · -- capped: the incremented count never exceeds original_beds
      have hagree := hinv.agree camp hmem
      have hpos : 0 < activeCountFor s.selections camp.id := by
        apply List.countP_pos_iff.mpr
        refine ⟨sel, hselmem, ?_⟩
        simp [hid, hselact]
      omega

/-- Witness for C5: after a refugee selects seed camp 0 (beds 24 → 23),
cancelling stamps the row and restores the camp to 24 ≤ 24 beds. -/
theorem claim_C5_cancelSelection_witness :
    (cancelSelection (applyOp initState (MOp.opSelect (some uRef) 0)) (some uRef) 5 none none).1
        = mgrOk
    ∧ ({ id := 0, user_id := 7, camp_id := 0, status := Status.cancelled,
         cancelled_at := some 5 } : Selection)
        ∈ (cancelSelection (applyOp initState (MOp.opSelect (some uRef) 0))
            (some uRef) 5 none none).2.selections
    ∧ ∃ camp, findCamp (applyOp initState (MOp.opSelect (some uRef) 0)).camps 0 = some camp
        ∧ findCamp (cancelSelection (applyOp initState (MOp.opSelect (some uRef) 0))
              (some uRef) 5 none none).2.camps 0
            = some { camp with beds := camp.beds + 1 }
        ∧ camp.beds + 1 ≤ camp.original_beds :=
  (claim_C5_cancelSelection (applyOp initState (MOp.opSelect (some uRef) 0))
      (Reachable.step (MOp.opSelect (some uRef) 0) Reachable.init trivial) uRef 5).2
    ⟨0, 7, 0, Status.active, none⟩ (by decide)

/-- C8: `deleteCamp` succeeds only for a volunteer requester (any other
logged-in requester gets the `NotAuthorized` message and an unchanged
store).  The source store cascades rather than rejecting: on a reachable
store (even one reached through partially failed executions), deleting a
camp removes it together with all its selection rows, so every user whose
active selection pointed at that camp has no active selection on the next
query. -/
theorem claim_C8_deleteCamp_cascades (s : DB) (h : ReachableF s) (u : CUser) (cid : Nat) :
    (u.role = "volunteer" →
       (deleteCamp s (some u) cid none).1 = mgrOk
       ∧ (∀ c ∈ (deleteCamp s (some u) cid none).2.camps, c.id ≠ cid)
       ∧ (∀ uid sel, getUserCampSelection s.selections uid = some sel → sel.camp_id = cid →
            getUserCampSelection (deleteCamp s (some u) cid none).2.selections uid = none))
    ∧ (u.role ≠ "volunteer" →
       ∀ e, deleteCamp s (some u) cid e = (mgrFail errOnlyVolunteersDelete, s)) := by
  constructor
  · intro hrole
    rw [deleteCamp_commit s u cid hrole]
    refine ⟨rfl, ?_, ?_⟩
    · intro c hc
      have := (List.mem_filter.mp hc).2
      simpa using this
    · intro uid sel hsel hcid
      obtain ⟨hselmem, hseluid, hselact⟩ := getUserCampSelection_spec hsel
      have hup : (sel.user_id == uid && sel.status == Status.active) = true := by
        simp [hseluid, hselact]
      rw [getUserCampSelection, List.find?_eq_none]
      intro r hr hpr
      obtain ⟨hr', hw⟩ := List.mem_filter.mp hr
      have hreq : r = sel :=
        eq_of_countP_le_one (reachableF_singleActive h uid) hr' hselmem hpr hup
      subst hreq
      rw [hcid] at hw
      simp at hw
  · intro hrole e
    exact deleteCamp_notVolunteer s u cid e hrole

/-- Witness for C8: after a refugee selects seed camp 0, a volunteer
deletes that camp; the deletion succeeds, the camp is gone, and the
refugee's active selection is gone with it. -/
theorem claim_C8_deleteCamp_cascades_witness :
    (deleteCamp (selectCamp initState (some uRef) 0 none none).2 (some uVol) 0 none).1 = mgrOk
    ∧ (∀ c ∈ (deleteCamp (selectCamp initState (some uRef) 0 none none).2
          (some uVol) 0 none).2.camps, c.id ≠ 0)
    ∧ (∀ uid sel,
        getUserCampSelection (selectCamp initState (some uRef) 0 none none).2.selections uid
          = some sel → sel.camp_id = 0 →
        getUserCampSelection (deleteCamp (selectCamp initState (some uRef) 0 none none).2
            (some uVol) 0 none).2.selections uid = none) :=
  (claim_C8_deleteCamp_cascades (selectCamp initState (some uRef) 0 none none).2
      (ReachableF.stepSelect (some uRef) 0 none none ReachableF.init) uVol 0).1 rfl

/-- C9: `login` performs no password verification — its whole outcome
(result, returned user, cached current user) is independent of the
password argument — and for every registered email (with the store up) it
succeeds with the stored user minus the password column. -/
theorem claim_C9_login_ignores_password (users : List AuthUser) (prev : Option StoredUser)
    (email p1 p2 : String) (e : Option StoreErr) :
    login users prev email p1 e = login users prev email p2 e
    ∧ (∀ usr, getUserByEmail users email = some usr → e = none →
        (login users prev email p1 e).success = true
        ∧ (login users prev email p1 e).user = some (stripPassword usr)) := by
  constructor
  · rfl
  · intro usr husr he
    subst he
    simp [login, husr]

/-- Witness for C9: two logins with the same registered email and two
different passwords produce the same successful outcome. -/
theorem claim_C9_login_ignores_password_witness :
    login [⟨1, "a@x.org", "Asha", "refugee", "secret"⟩] none "a@x.org" "right-password" none
      = login [⟨1, "a@x.org", "Asha", "refugee", "secret"⟩] none "a@x.org" "wrong-password" none
    ∧ (login [⟨1, "a@x.org", "Asha", "refugee", "secret"⟩] none
        "a@x.org" "right-password" none).success = true :=
  ⟨(claim_C9_login_ignores_password [⟨1, "a@x.org", "Asha", "refugee", "secret"⟩] none
      "a@x.org" "right-password" "wrong-password" none).1,
   ((claim_C9_login_ignores_password [⟨1, "a@x.org", "Asha", "refugee", "secret"⟩] none
      "a@x.org" "right-password" "wrong-password" none).2
      ⟨1, "a@x.org", "Asha", "refugee", "secret"⟩ (by decide) rfl).1⟩

/-- A structured manager result: success with no error message, or failure
carrying one. -/
def resultWellFormed (r : MgrResult) : Prop :=
  (r.success = true ∧ r.error = none) ∨ (r.success = false ∧ ∃ m, r.error = some m)

/-- C10: every public `CampManager` operation is total at its interface:
for every input and every store-call outcome it returns a structured
result — a `success` flag with an error message exactly on failure — and
(being a function into `MgrResult`) never escapes with an exception. -/
theorem claim_C10_operations_total (s : DB) (cu : Option CUser) (cid : Nat) (d : CampData)
    (now : Nat) (e1 e2 : Option StoreErr) :
    resultWellFormed (loadCamps e1)
    ∧ resultWellFormed (loadUserSelection cu e1)
    ∧ resultWellFormed (selectCamp s cu cid e1 e2).1
    ∧ resultWellFormed (cancelSelection s cu now e1 e2).1
    ∧ resultWellFormed (addCamp s cu d e1).1
    ∧ resultWellFormed (deleteCamp s cu cid e1).1
    ∧ resultWellFormed (addVolunteerAssignment s cu cid e1).1
    ∧ resultWellFormed (getVolunteerHistory cu e1) := by
  have hok : resultWellFormed mgrOk := Or.inl ⟨rfl, rfl⟩
  have hfailwf : ∀ m, resultWellFormed (mgrFail m) := fun m => Or.inr ⟨rfl, m, rfl⟩
  refine ⟨?_, ?_, ?_, ?_, ?_, ?_, ?_, ?_⟩
  · unfold loadCamps
    repeat' split
    all_goals first | exact hfailwf _ | exact hok
  · unfold loadUserSelection
    repeat' split
    all_goals first | exact hfailwf _ | exact hok
  · unfold selectCamp
    repeat' split
    all_goals first | exact hfailwf _ | exact hok
  · unfold cancelSelection
    repeat' split
    all_goals first | exact hfailwf _ | exact hok
  · unfold addCamp
    repeat' split
    all_goals first | exact hfailwf _ | exact hok
  · unfold deleteCamp
    repeat' split
    all_goals first | exact hfailwf _ | exact hok
  · unfold addVolunteerAssignment
    repeat' split
    all_goals first | exact hfailwf _ | exact hok
  · unfold getVolunteerHistory
    repeat' split
    all_goals first | exact hfailwf _ | exact hok

/-- C3 (amended): a mutating call that fails its validation checks, or
whose first store write fails, leaves the store exactly as it was before
the call; the sole exception is a failure of the bed-update store call
after the first store write already succeeded (`selectCamp`'s selection
insert, `cancelSelection`'s status update), in which case the failed call
leaves the first write committed — the source issues the two writes as
separate, non-transactional store calls. -/
theorem claim_C3_failed_call_state (s : DB) (cu : Option CUser) (cid now : Nat) (d : CampData)
    (ie ue : Option StoreErr) :
    ((selectCamp s cu cid ie ue).1.success = false →
        (selectCamp s cu cid ie ue).2 = s ∨ (ie = none ∧ ∃ e, ue = some e))
    ∧ ((cancelSelection s cu now ie ue).1.success = false →
        (cancelSelection s cu now ie ue).2 = s ∨ (ie = none ∧ ∃ e, ue = some e))
    ∧ ((addCamp s cu d ie).1.success = false → (addCamp s cu d ie).2 = s)
    ∧ ((deleteCamp s cu cid ie).1.success = false → (deleteCamp s cu cid ie).2 = s) := by
  refine ⟨?_, ?_, ?_, ?_⟩
  · unfold selectCamp
    repeat' split
    all_goals intro h
    all_goals first
      | exact Or.inl rfl
      | exact Or.inr ⟨rfl, _, rfl⟩
      | simp [mgrOk] at h
  · unfold cancelSelection
    repeat' split
    all_goals intro h
    all_goals first
      | exact Or.inl rfl
      | exact Or.inr ⟨rfl, _, rfl⟩
      | simp [mgrOk] at h
  · unfold addCamp
    repeat' split
    all_goals intro h
    all_goals first
      | rfl
      | simp [mgrOk] at h
  · unfold deleteCamp
    repeat' split
    all_goals intro h
    all_goals first
      | rfl
      | simp [mgrOk] at h

/-- Witness for the amended C3: a failed `addCamp` (store create error)
leaves the store exactly as before. -/
theorem claim_C3_failed_call_state_witness :
    (addCamp dbOneBed (some uVol) ⟨"New Shelter", 5⟩ (some errBoom)).1.success = false
    ∧ (addCamp dbOneBed (some uVol) ⟨"New Shelter", 5⟩ (some errBoom)).2 = dbOneBed :=
  ⟨by decide,
   (claim_C3_failed_call_state dbOneBed (some uVol) 0 0 ⟨"New Shelter", 5⟩
      (some errBoom) none).2.2.1 (by decide)⟩

/-- Counterexample to C3 as stated: on a store with one free bed, a
`selectCamp` whose selection insert succeeds but whose bed update fails
returns failure, yet the store is not as it was before the call, and the
camp's bed count disagrees with its active selection rows
(`beds + active = 2 ≠ 1 = original_beds`). -/
theorem claim_C3_failed_call_state_counterexample :
    (selectCamp dbOneBed (some uRef) 1 none (some errBoom)).1.success = false
    ∧ (selectCamp dbOneBed (some uRef) 1 none (some errBoom)).2 ≠ dbOneBed
    ∧ ∃ c ∈ (selectCamp dbOneBed (some uRef) 1 none (some errBoom)).2.camps,
        c.beds + (activeCountFor
            (selectCamp dbOneBed (some uRef) 1 none (some errBoom)).2.selections c.id : Int)
          ≠ c.original_beds := by
  decide

/-- C6 (amended): for a user with no active selection and a camp with
`beds > 0`, `selectCamp` then `cancelSelection` returns the camp's beds to
its pre-selection value, and the subsequent re-`selectCamp` succeeds and
leaves beds at the pre-selection value minus 1 (the value after the first
selection), not at the pre-selection value itself. -/
theorem claim_C6_roundtrip (s : DB) (u : CUser) (cid now : Nat) (camp : Camp)
    (hsel : getUserCampSelection s.selections u.id = none)
    (hfind : findCamp s.camps cid = some camp)
    (hb : 0 < camp.beds) :
    (selectCamp s (some u) cid none none).1 = mgrOk
    ∧ (∃ c1, findCamp (selectCamp s (some u) cid none none).2.camps cid = some c1
        ∧ c1.beds = camp.beds - 1)
    ∧ (cancelSelection (selectCamp s (some u) cid none none).2 (some u) now none none).1 = mgrOk
    ∧ (∃ c2, findCamp (cancelSelection (selectCamp s (some u) cid none none).2
          (some u) now none none).2.camps cid = some c2 ∧ c2.beds = camp.beds)
    ∧ (selectCamp (cancelSelection (selectCamp s (some u) cid none none).2
          (some u) now none none).2 (some u) cid none none).1 = mgrOk
    ∧ (∃ c3, findCamp (selectCamp (cancelSelection (selectCamp s (some u) cid none none).2
          (some u) now none none).2 (some u) cid none none).2.camps cid = some c3
        ∧ c3.beds = camp.beds - 1) := by
  have hble : ¬ camp.beds ≤ 0 := by omega
  have hstep1 := selectCamp_commit s u cid hsel hfind hble
  -- facts about the store after the first selection
  have hfc1 : findCamp (updateCampBeds
      { s with selections := s.selections ++ [⟨s.nextSelId, u.id, cid, Status.active, none⟩],
               nextSelId := s.nextSelId + 1 } cid (camp.beds - 1)).camps cid
      = some { camp with beds := camp.beds - 1 } :=
    find?_map_update s.camps cid (camp.beds - 1) camp hfind
  have hs1sel : getUserCampSelection (updateCampBeds
      { s with selections := s.selections ++ [⟨s.nextSelId, u.id, cid, Status.active, none⟩],
               nextSelId := s.nextSelId + 1 } cid (camp.beds - 1)).selections u.id
      = some ⟨s.nextSelId, u.id, cid, Status.active, none⟩ := by
    show (s.selections ++ [(⟨s.nextSelId, u.id, cid, Status.active, none⟩ : Selection)]).find?
        (fun r => r.user_id == u.id && r.status == Status.active)
      = some ⟨s.nextSelId, u.id, cid, Status.active, none⟩
    rw [List.find?_append]
    rw [show s.selections.find? (fun r =>
      r.user_id == u.id && r.status == Status.active) = none from hsel]
    simp
  have hstep2 := cancelSelection_commit _ u now hs1sel hfc1
  have hfc2 := find?_map_update (updateCampBeds
      { s with selections := s.selections ++ [⟨s.nextSelId, u.id, cid, Status.active, none⟩],
               nextSelId := s.nextSelId + 1 } cid (camp.beds - 1)).camps
    cid (camp.beds - 1 + 1) { camp with beds := camp.beds - 1 } hfc1
  have hs2sel : getUserCampSelection (updateCampBeds (cancelCampSelection (updateCampBeds
      { s with selections := s.selections ++ [⟨s.nextSelId, u.id, cid, Status.active, none⟩],
               nextSelId := s.nextSelId + 1 } cid (camp.beds - 1)) u.id now)
        cid (camp.beds - 1 + 1)).selections u.id = none := by
    show ((s.selections ++ [(⟨s.nextSelId, u.id, cid, Status.active, none⟩ : Selection)]).map
        (fun r => if r.user_id == u.id && r.status == Status.active then
          { r with status := Status.cancelled, cancelled_at := some now } else r)).find?
        (fun r => r.user_id == u.id && r.status == Status.active) = none
    rw [List.find?_eq_none]
    intro x hx
    obtain ⟨r, hr, rfl⟩ := List.mem_map.mp hx
    rcases List.mem_append.mp hr with hr' | hr'
    · have hnr := (List.find?_eq_none.mp hsel) r hr'
      by_cases hgu : (r.user_id == u.id && r.status == Status.active) = true
      · exact absurd hgu hnr
      · rw [if_neg hgu]
        exact hnr
    · have : r = ⟨s.nextSelId, u.id, cid, Status.active, none⟩ := by simpa using hr'
      subst this
      simp
  have hb2 : ¬ (camp.beds - 1 + 1) ≤ 0 := by omega
  have hstep3 := selectCamp_commit (updateCampBeds (cancelCampSelection (updateCampBeds
      { s with selections := s.selections ++ [⟨s.nextSelId, u.id, cid, Status.active, none⟩],
               nextSelId := s.nextSelId + 1 } cid (camp.beds - 1)) u.id now)
        cid (camp.beds - 1 + 1)) u cid hs2sel hfc2 hb2
  have hfc3 := find?_map_update (updateCampBeds (cancelCampSelection (updateCampBeds
      { s with selections := s.selections ++ [⟨s.nextSelId, u.id, cid, Status.active, none⟩],
               nextSelId := s.nextSelId + 1 } cid (camp.beds - 1)) u.id now)
        cid (camp.beds - 1 + 1)).camps
    cid (camp.beds - 1 + 1 - 1) { camp with beds := camp.beds - 1 + 1 } hfc2
  simp only [hstep1]
  simp only [hstep2]
  simp only [hstep3]
  refine ⟨trivial, ⟨_, hfc1, rfl⟩, trivial, ⟨_, hfc2, ?_⟩, trivial, ⟨_, hfc3, ?_⟩⟩
  · show camp.beds - 1 + 1 = camp.beds
    omega
  · show camp.beds - 1 + 1 - 1 = camp.beds - 1
    omega

/-- Witness for the amended C6: on the seeded store, a refugee selects
seed camp 0 (24 → 23 beds), cancels (back to 24), and re-selects, ending
at 23 = 24 − 1 beds. -/
theorem claim_C6_roundtrip_witness :
    (selectCamp initState (some uRef) 0 none none).1 = mgrOk
    ∧ (∃ c1, findCamp (selectCamp initState (some uRef) 0 none none).2.camps 0 = some c1
        ∧ c1.beds = 24 - 1)
    ∧ (cancelSelection (selectCamp initState (some uRef) 0 none none).2
        (some uRef) 9 none none).1 = mgrOk
    ∧ (∃ c2, findCamp (cancelSelection (selectCamp initState (some uRef) 0 none none).2
          (some uRef) 9 none none).2.camps 0 = some c2 ∧ c2.beds = 24)
    ∧ (selectCamp (cancelSelection (selectCamp initState (some uRef) 0 none none).2
          (some uRef) 9 none none).2 (some uRef) 0 none none).1 = mgrOk
    ∧ (∃ c3, findCamp (selectCamp (cancelSelection (selectCamp initState (some uRef) 0 none none).2
          (some uRef) 9 none none).2 (some uRef) 0 none none).2.camps 0 = some c3
        ∧ c3.beds = 24 - 1) :=
  claim_C6_roundtrip initState uRef 0 9 ⟨0, "Central School Grounds", 24, 24, "default", none⟩
    rfl rfl (by decide)

/-- Counterexample to C6 as stated: on a camp with one free bed, select /
cancel / re-select by the same user all succeed, yet the final bed count
(0) differs from its value before the first selection (1). -/
theorem claim_C6_roundtrip_counterexample :
    (selectCamp dbOneBed (some uRef) 1 none none).1.success = true
    ∧ (cancelSelection (selectCamp dbOneBed (some uRef) 1 none none).2
        (some uRef) 3 none none).1.success = true
    ∧ (selectCamp (cancelSelection (selectCamp dbOneBed (some uRef) 1 none none).2
        (some uRef) 3 none none).2 (some uRef) 1 none none).1.success = true
    ∧ (findCamp dbOneBed.camps 1).map Camp.beds = some 1
    ∧ (findCamp (selectCamp (cancelSelection (selectCamp dbOneBed (some uRef) 1 none none).2
          (some uRef) 3 none none).2 (some uRef) 1 none none).2.camps 1).map Camp.beds
        ≠ (findCamp dbOneBed.camps 1).map Camp.beds := by
  decide

end FloodRelief
